import Mathlib

/-!
Verification of the s3-probe discovery/reconciliation core and probe
lifecycle, shallowly embedded from the Go sources
(`pkg/watcher/watcher.go`, `pkg/probe/consul.go`, `pkg/probe/probe.go`).

Pure functions of the Go code become Lean functions; the stateful parts
(the reconciler's map of watched services, the S3 backends touched by
bucket preparation and checks) become explicit state passing; calls to
external collaborators (consul, minio) are driven by explicit
environment/oracle values describing the collaborator's responses.
-/

namespace S3Probe

/-! ## Data model (`pkg/probe/consul.go`)

`S3Endpoint` holds the endpoint name and a minio client handle; the
handle is an opaque network resource that never takes part in any
comparison, so only the name is modelled. -/

structure S3Endpoint where
  Name : String
deriving DecidableEq, Repr

structure S3Service where
  Name : String
  Endpoint : String
  Gateway : Bool
  GatewayReadEnpoints : List S3Endpoint
deriving DecidableEq, Repr

/-- `S3Service.Equals` from `pkg/probe/consul.go`: name, endpoint, gateway
flag and the length of the gateway read-endpoint list must match, then the
loop compares the endpoint names position by position. -/
def S3Service.Equals (s other : S3Service) : Bool :=
  if s.Name != other.Name ||
     s.Endpoint != other.Endpoint ||
     s.Gateway != other.Gateway ||
     s.GatewayReadEnpoints.length != other.GatewayReadEnpoints.length then
    false
  else
    (s.GatewayReadEnpoints.zip other.GatewayReadEnpoints).all
      (fun pr => pr.1.Name == pr.2.Name)

/-! ## Reconciler diff (`pkg/watcher/watcher.go`)

`getSliceDiff` builds `mainIndex`, a Go map from service name to the
service, by inserting every element of `mainSlice` in order (a later
element with the same name overwrites an earlier one); it then keeps the
elements of `subSlice` whose name is absent from the index or whose
indexed service is not `Equals` to them.  The index is modelled as the
lookup function the loop produces. -/

def buildIndex : List S3Service → String → Option S3Service
  | [], _ => none
  | s :: rest, n =>
    match buildIndex rest n with
    | some sv => some sv
    | none => if n = s.Name then some s else none

def getSliceDiff (mainSlice subSlice : List S3Service) : List S3Service :=
  subSlice.filter (fun s =>
    match buildIndex mainSlice s.Name with
    | none => true
    | some sv => !(sv.Equals s))

/-- `getServicesToModify(servicesFromConsul, watchedServices)`:
`toAdd` are the consul services missing from or changed in the watched
set, `toRemove` the watched services missing from or changed in the
consul set. -/
def getServicesToModify (servicesFromConsul watchedServices : List S3Service) :
    List S3Service × List S3Service :=
  (getSliceDiff watchedServices servicesFromConsul,
   getSliceDiff servicesFromConsul watchedServices)

/-! ### Properties of the index and the diff -/

theorem buildIndex_eq_none {A : List S3Service} {n : String} :
    buildIndex A n = none ↔ ∀ a ∈ A, a.Name ≠ n := by
  induction A with
  | nil => simp [buildIndex]
  | cons s rest ih =>
    simp only [buildIndex, List.mem_cons]
    cases h : buildIndex rest n with
    | some sv =>
      simp only [reduceCtorEq, false_iff, not_forall]
      have hsv := ih.not.mp (by simp [h])
      push_neg at hsv
      obtain ⟨a, ha, hn⟩ := hsv
      exact ⟨a, Or.inr ha, by simpa using hn⟩
    | none =>
      have hrest := ih.mp h
      constructor
      · intro hif a ha
        rcases ha with rfl | ha
        · intro hn
          simp [hn.symm] at hif
        · exact hrest a ha
      · intro hall
        have := hall s (Or.inl rfl)
        simp [Ne.symm this]

theorem buildIndex_eq_some {A : List S3Service} {n : String} {a : S3Service}
    (h : buildIndex A n = some a) : a ∈ A ∧ a.Name = n := by
  induction A with
  | nil => simp [buildIndex] at h
  | cons s rest ih =>
    simp only [buildIndex] at h
    cases hr : buildIndex rest n with
    | some sv =>
      rw [hr] at h
      obtain ⟨hmem, hname⟩ := ih (hr.trans h)
      exact ⟨List.mem_cons_of_mem _ hmem, hname⟩
    | none =>
      rw [hr] at h
      by_cases hn : n = s.Name
      · subst hn
        rw [if_pos rfl] at h
        injection h with h
        subst h
        exact ⟨List.mem_cons_self _ _, rfl⟩
      · simp [hn] at h

theorem buildIndex_of_mem {A : List S3Service} {a : S3Service}
    (hA : (A.map S3Service.Name).Nodup) (ha : a ∈ A) :
    buildIndex A a.Name = some a := by
  induction A with
  | nil => simp at ha
  | cons s rest ih =>
    simp only [List.map_cons, List.nodup_cons] at hA
    rcases List.mem_cons.mp ha with rfl | hmem
    · have hnone : buildIndex rest a.Name = none :=
        buildIndex_eq_none.mpr (fun b hb hname =>
          hA.1 (hname ▸ List.mem_map_of_mem S3Service.Name hb))
      simp [buildIndex, hnone]
    · have := ih hA.2 hmem
      simp [buildIndex, this]

theorem zipNames_iff :
    ∀ l1 l2 : List S3Endpoint, l1.length = l2.length →
      (((l1.zip l2).all (fun pr => pr.1.Name == pr.2.Name)) = true ↔
        l1.map S3Endpoint.Name = l2.map S3Endpoint.Name)
  | [], [], _ => by simp
  | [], _ :: _, h => by simp at h
  | _ :: _, [], h => by simp at h
  | a :: l1, b :: l2, h => by
    simp only [List.length_cons, Nat.succ.injEq] at h
    simp only [List.zip_cons_cons, List.all_cons, Bool.and_eq_true, beq_iff_eq,
      List.map_cons, List.cons.injEq]
    rw [zipNames_iff l1 l2 h]

theorem S3Service.Equals_iff {s t : S3Service} :
    s.Equals t = true ↔
      s.Name = t.Name ∧ s.Endpoint = t.Endpoint ∧ s.Gateway = t.Gateway ∧
      s.GatewayReadEnpoints.map S3Endpoint.Name =
        t.GatewayReadEnpoints.map S3Endpoint.Name := by
  unfold S3Service.Equals
  by_cases hname : s.Name = t.Name
  · by_cases hep : s.Endpoint = t.Endpoint
    · by_cases hgw : s.Gateway = t.Gateway
      · by_cases hlen :
            s.GatewayReadEnpoints.length = t.GatewayReadEnpoints.length
        · rw [if_neg (by simp [hname, hep, hgw, hlen])]
          rw [zipNames_iff _ _ hlen]
          simp [hname, hep, hgw]
        · rw [if_pos (by simp [hlen])]
          constructor
          · intro h; simp at h
          · rintro ⟨-, -, -, hmap⟩
            exact absurd (by simpa using congrArg List.length hmap) hlen
      · rw [if_pos (by simp [hgw])]; simp [hgw]
    · rw [if_pos (by simp [hep])]; simp [hep]
  · rw [if_pos (by simp [hname])]; simp [hname]

theorem S3Service.Equals_comm (s t : S3Service) : s.Equals t = t.Equals s := by
  rw [Bool.eq_iff_iff, S3Service.Equals_iff, S3Service.Equals_iff]
  constructor <;> rintro ⟨h1, h2, h3, h4⟩ <;>
    exact ⟨h1.symm, h2.symm, h3.symm, h4.symm⟩

/-- Spec-side predicate (spec §8 "Diff purity"): a service `s` is picked
up from one list when the other list has no member with `s`'s name, or
has one whose configuration is unequal under `S3Service.Equals`. -/
def specAbsentOrChanged (other : List S3Service) (s : S3Service) : Prop :=
  (∀ a ∈ other, a.Name ≠ s.Name) ∨
  (∃ a ∈ other, a.Name = s.Name ∧ a.Equals s = false)

theorem mem_getSliceDiff {main sub : List S3Service}
    (hmain : (main.map S3Service.Name).Nodup) (s : S3Service) :
    s ∈ getSliceDiff main sub ↔ s ∈ sub ∧ specAbsentOrChanged main s := by
  unfold getSliceDiff
  rw [List.mem_filter]
  refine and_congr_right fun _ => ?_
  cases hidx : buildIndex main s.Name with
  | none =>
    simp only [hidx]
    constructor
    · intro _
      exact Or.inl fun a ha => buildIndex_eq_none.mp hidx a ha
    · intro _; trivial
  | some sv =>
    obtain ⟨hsv_mem, hsv_name⟩ := buildIndex_eq_some hidx
    simp only [hidx, Bool.not_eq_true']
    constructor
    · intro hne
      exact Or.inr ⟨sv, hsv_mem, hsv_name, hne⟩
    · rintro (habs | ⟨a, ha, haname, hane⟩)
      · exact absurd hsv_name (habs sv hsv_mem)
      · have : buildIndex main a.Name = some a := buildIndex_of_mem hmain ha
        rw [haname, hidx] at this
        injection this with this
        exact this ▸ hane

/-- **C1**. For service lists A (currently watched) and B (candidates from
discovery), `getServicesToModify B A` returns `toAdd` = exactly the members
of B with no same-named member in A or whose same-named member in A is
unequal under `S3Service.Equals`, `toRemove` = exactly the members of A
with no same-named member in B or whose same-named member in B is unequal,
and the names occurring in both `toAdd` and `toRemove` are exactly the
names present in both sets with unequal configurations. -/
theorem getServicesToModify_diff_purity (B A : List S3Service)
    (hA : (A.map S3Service.Name).Nodup) (hB : (B.map S3Service.Name).Nodup) :
    (∀ b, b ∈ (getServicesToModify B A).1 ↔ b ∈ B ∧ specAbsentOrChanged A b) ∧
    (∀ a, a ∈ (getServicesToModify B A).2 ↔ a ∈ A ∧ specAbsentOrChanged B a) ∧
    (∀ n, (n ∈ (getServicesToModify B A).1.map S3Service.Name ∧
           n ∈ (getServicesToModify B A).2.map S3Service.Name) ↔
      ∃ a ∈ A, ∃ b ∈ B, a.Name = n ∧ b.Name = n ∧ a.Equals b = false) := by
  refine ⟨fun b => mem_getSliceDiff hA b, fun a => mem_getSliceDiff hB a, fun n => ?_⟩
  constructor
  · rintro ⟨hadd, hrem⟩
    obtain ⟨b, hb_diff, hb_name⟩ := List.mem_map.mp hadd
    obtain ⟨a, ha_diff, ha_name⟩ := List.mem_map.mp hrem
    obtain ⟨hbB, hbSpec⟩ := (mem_getSliceDiff hA b).mp hb_diff
    obtain ⟨haA, _⟩ := (mem_getSliceDiff hB a).mp ha_diff
    rcases hbSpec with habs | ⟨a', ha', ha'name, ha'ne⟩
    · exact absurd (ha_name.trans hb_name.symm) (habs a haA)
    · exact ⟨a', ha', b, hbB, ha'name.trans hb_name, hb_name, ha'ne⟩
  · rintro ⟨a, haA, b, hbB, ha_name, hb_name, hne⟩
    constructor
    · refine List.mem_map.mpr ⟨b, ?_, hb_name⟩
      exact (mem_getSliceDiff hA b).mpr
        ⟨hbB, Or.inr ⟨a, haA, ha_name.trans hb_name.symm, hne⟩⟩
    · refine List.mem_map.mpr ⟨a, ?_, ha_name⟩
      refine (mem_getSliceDiff hB a).mpr
        ⟨haA, Or.inr ⟨b, hbB, hb_name.trans ha_name.symm, ?_⟩⟩
      rw [S3Service.Equals_comm]
      exact hne

/-- Sample inputs for the diff-purity witness: the watched set holds `s1`
at `addr1`, discovery reports `s1` at `addr2` (a changed service) and a
fresh `s2`. -/
def sampleWatchedA : List S3Service :=
  [{ Name := "s1", Endpoint := "addr1", Gateway := false, GatewayReadEnpoints := [] }]

def sampleConsulB : List S3Service :=
  [{ Name := "s1", Endpoint := "addr2", Gateway := false, GatewayReadEnpoints := [] },
   { Name := "s2", Endpoint := "addr3", Gateway := false, GatewayReadEnpoints := [] }]

theorem getServicesToModify_diff_purity_witness :
    ((sampleWatchedA.map S3Service.Name).Nodup ∧
     (sampleConsulB.map S3Service.Name).Nodup) ∧
    ((∀ b, b ∈ (getServicesToModify sampleConsulB sampleWatchedA).1 ↔
        b ∈ sampleConsulB ∧ specAbsentOrChanged sampleWatchedA b) ∧
     (∀ a, a ∈ (getServicesToModify sampleConsulB sampleWatchedA).2 ↔
        a ∈ sampleWatchedA ∧ specAbsentOrChanged sampleConsulB a) ∧
     (∀ n, (n ∈ (getServicesToModify sampleConsulB sampleWatchedA).1.map S3Service.Name ∧
            n ∈ (getServicesToModify sampleConsulB sampleWatchedA).2.map S3Service.Name) ↔
        ∃ a ∈ sampleWatchedA, ∃ b ∈ sampleConsulB,
          a.Name = n ∧ b.Name = n ∧ a.Equals b = false)) :=
  ⟨⟨by decide, by decide⟩,
   getServicesToModify_diff_purity sampleConsulB sampleWatchedA (by decide) (by decide)⟩

/-! ## Reconciliation cycle (`WatchPools` body, `pkg/watcher/watcher.go`)

One iteration of `WatchPools` computes the diff and then runs
`flushOldProbes` followed by `createNewProbes`.  The Go map
`watchedServices` is modelled as an association list with unique keys;
`probeChan` signalling and goroutine launch/termination are modelled as
an event trace: `stop n` is emitted when `flushOldProbes` deletes the
entry for `n` and signals its worker, `start n` when `createNewProbes`
registers the entry for `n` and launches its scheduling loop.  Probe
construction and `PrepareProbing` are external effects, abstracted by the
oracle `prep` (`false` means `NewProbeFromConsul` or `PrepareProbing`
failed, in which case the Go code `continue`s without registering). -/

abbrev WMap := List (String × S3Service)

def mapLookup (m : WMap) (k : String) : Option S3Service :=
  (m.find? (fun kv => kv.1 == k)).map Prod.snd

def mapDelete (m : WMap) (k : String) : WMap :=
  m.filter (fun kv => kv.1 != k)

def mapInsert (m : WMap) (k : String) (v : S3Service) : WMap :=
  (k, v) :: mapDelete m k

def getWatchedServices (m : WMap) : List S3Service := m.map Prod.snd

inductive WEvent where
  | stop (n : String)
  | start (n : String)
deriving DecidableEq, Repr

def flushOldProbes (m : WMap) : List S3Service → WMap × List WEvent
  | [] => (m, [])
  | s :: rest =>
    match mapLookup m s.Name with
    | some _ =>
      let next := flushOldProbes (mapDelete m s.Name) rest
      (next.1, WEvent.stop s.Name :: next.2)
    | none => flushOldProbes m rest

def createNewProbes (prep : S3Service → Bool) (m : WMap) :
    List S3Service → WMap × List WEvent
  | [] => (m, [])
  | s :: rest =>
    if prep s then
      let next := createNewProbes prep (mapInsert m s.Name s) rest
      (next.1, WEvent.start s.Name :: next.2)
    else
      createNewProbes prep m rest

/-- One cycle of `WatchPools`: diff, flush the removed/changed services,
then create the added/changed services. -/
def reconcileCycle (prep : S3Service → Bool) (servicesFromConsul : List S3Service)
    (m : WMap) : WMap × List WEvent :=
  let mods := getServicesToModify servicesFromConsul (getWatchedServices m)
  let flushed := flushOldProbes m mods.2
  let created := createNewProbes prep flushed.1 mods.1
  (created.1, flushed.2 ++ created.2)

/-- The multiset of running scheduling loops, replayed from the event
trace: a `stop` removes one worker with that name, a `start` adds one. -/
def applyWEvent (running : List String) : WEvent → List String
  | .stop n => running.erase n
  | .start n => n :: running

def applyWEvents (running : List String) (evs : List WEvent) : List String :=
  evs.foldl applyWEvent running

/-- Well-formedness of the reconciler's map: one entry per name, each
entry keyed by its service's name. -/
def WMapWF (m : WMap) : Prop :=
  (m.map Prod.fst).Nodup ∧ ∀ kv ∈ m, kv.1 = kv.2.Name

/-! ### Map lemmas -/

theorem mapLookup_eq_none {m : WMap} {k : String} :
    mapLookup m k = none ↔ k ∉ m.map Prod.fst := by
  induction m with
  | nil => simp [mapLookup]
  | cons kv rest ih =>
    unfold mapLookup at ih ⊢
    rw [List.find?_cons]
    by_cases h : kv.1 = k
    · simp [h]
    · have : (kv.1 == k) = false := by simp [h]
      rw [this]
      simp only [List.map_cons, List.mem_cons]
      rw [ih]
      constructor
      · intro hk hor
        rcases hor with hor | hor
        · exact h hor.symm
        · exact hk hor
      · intro hk hmem
        exact hk (Or.inr hmem)

theorem map_fst_mapDelete (m : WMap) (k : String) :
    (mapDelete m k).map Prod.fst = (m.map Prod.fst).filter (fun x => x != k) := by
  induction m with
  | nil => rfl
  | cons kv rest ih =>
    show ((kv :: rest).filter (fun kv => kv.1 != k)).map Prod.fst = _
    rw [List.filter_cons, List.map_cons, List.filter_cons]
    by_cases h : kv.1 = k
    · have hc : (kv.1 != k) = false := by simp [h]
      rw [hc]
      simp only [Bool.false_eq_true, if_false]
      exact ih
    · have hc : (kv.1 != k) = true := by simp [h]
      rw [hc]
      simp only [if_true, List.map_cons]
      exact congrArg (fun l => kv.1 :: l) ih

theorem mapDelete_of_not_mem {m : WMap} {k : String}
    (h : k ∉ m.map Prod.fst) : mapDelete m k = m := by
  unfold mapDelete
  apply List.filter_eq_self.mpr
  intro kv hkv
  simp only [bne_iff_ne, ne_eq]
  intro hk
  exact h (hk ▸ List.mem_map_of_mem Prod.fst hkv)

theorem WMapWF_mapDelete {m : WMap} {k : String} (h : WMapWF m) :
    WMapWF (mapDelete m k) := by
  refine ⟨?_, fun kv hkv => h.2 kv (List.mem_of_mem_filter hkv)⟩
  rw [map_fst_mapDelete]
  exact h.1.filter _

theorem WMapWF_mapInsert {m : WMap} {s : S3Service} (h : WMapWF m) :
    WMapWF (mapInsert m s.Name s) := by
  constructor
  · simp only [mapInsert, List.map_cons, List.nodup_cons]
    refine ⟨?_, (WMapWF_mapDelete h).1⟩
    rw [map_fst_mapDelete]
    simp
  · intro kv hkv
    rcases List.mem_cons.mp hkv with rfl | hkv
    · rfl
    · exact h.2 kv (List.mem_of_mem_filter hkv)

theorem map_fst_mapInsert_of_not_mem {m : WMap} {s : S3Service}
    (h : s.Name ∉ m.map Prod.fst) :
    (mapInsert m s.Name s).map Prod.fst = s.Name :: m.map Prod.fst := by
  simp [mapInsert, mapDelete_of_not_mem h]

/-- The names of the watched services are exactly the map's keys. -/
theorem watched_names_eq_keys {m : WMap} (h : WMapWF m) :
    (getWatchedServices m).map S3Service.Name = m.map Prod.fst := by
  unfold getWatchedServices
  rw [List.map_map]
  exact (List.map_congr_left fun kv hkv => (h.2 kv hkv).symm)

/-! ### Prefix and replay helpers -/

theorem prefix_cons_cases {α : Type} {p : List α} {a : α} {t : List α}
    (h : p <+: a :: t) : p = [] ∨ ∃ q, p = a :: q ∧ q <+: t := by
  cases p with
  | nil => exact Or.inl rfl
  | cons x xs =>
    obtain ⟨r, hr⟩ := h
    rw [List.cons_append] at hr
    injection hr with h1 h2
    exact Or.inr ⟨xs, by rw [h1], ⟨r, h2⟩⟩

theorem prefix_append_cases {α : Type} :
    ∀ (t1 : List α) {p t2 : List α}, p <+: t1 ++ t2 →
      p <+: t1 ∨ ∃ q, p = t1 ++ q ∧ q <+: t2
  | [], p, t2, h => Or.inr ⟨p, rfl, h⟩
  | a :: t1, p, t2, h => by
    rcases prefix_cons_cases h with rfl | ⟨q, rfl, hq⟩
    · exact Or.inl (List.nil_prefix)
    · rcases prefix_append_cases t1 hq with h1 | ⟨r, rfl, hr⟩
      · obtain ⟨r2, hr2⟩ := h1
        exact Or.inl ⟨r2, by rw [List.cons_append, hr2]⟩
      · exact Or.inr ⟨r, rfl, hr⟩

theorem applyWEvents_append (r : List String) (t1 t2 : List WEvent) :
    applyWEvents r (t1 ++ t2) = applyWEvents (applyWEvents r t1) t2 :=
  List.foldl_append _ _ _ _

theorem applyWEvents_stops_nodup {p : List WEvent} {r : List String}
    (hstops : ∀ e ∈ p, ∃ n, e = WEvent.stop n) (hr : r.Nodup) :
    (applyWEvents r p).Nodup := by
  induction p generalizing r with
  | nil => exact hr
  | cons e rest ih =>
    obtain ⟨n, rfl⟩ := hstops e (List.mem_cons_self _ _)
    exact ih (fun e he => hstops e (List.mem_cons_of_mem _ he)) (hr.erase n)

/-! ### `flushOldProbes`: behaviour of the flush phase -/

theorem flushOldProbes_spec :
    ∀ (rs : List S3Service) (m : WMap), WMapWF m →
      WMapWF (flushOldProbes m rs).1 ∧
      (∀ e ∈ (flushOldProbes m rs).2, ∃ n, e = WEvent.stop n) ∧
      ((flushOldProbes m rs).1.map Prod.fst
        = (m.map Prod.fst).filter (fun k => rs.all (fun s => k != s.Name))) ∧
      applyWEvents (m.map Prod.fst) (flushOldProbes m rs).2
        = (flushOldProbes m rs).1.map Prod.fst ∧
      (∀ n, n ∈ m.map Prod.fst → (∃ s ∈ rs, s.Name = n) →
        WEvent.stop n ∈ (flushOldProbes m rs).2)
  | [], m, hWF => by
    refine ⟨hWF, by simp [flushOldProbes], ?_, rfl, by simp [flushOldProbes]⟩
    show m.map Prod.fst = (m.map Prod.fst).filter (fun _ => true)
    simp
  | s :: rs, m, hWF => by
    cases hl : mapLookup m s.Name with
    | some v =>
      have hWF' := WMapWF_mapDelete (k := s.Name) hWF
      obtain ⟨ih1, ih2, ih3, ih4, ih5⟩ := flushOldProbes_spec rs (mapDelete m s.Name) hWF'
      have heq : flushOldProbes m (s :: rs)
          = ((flushOldProbes (mapDelete m s.Name) rs).1,
             WEvent.stop s.Name :: (flushOldProbes (mapDelete m s.Name) rs).2) := by
        simp [flushOldProbes, hl]
      rw [heq]
      refine ⟨ih1, ?_, ?_, ?_, ?_⟩
      · intro e he
        rcases List.mem_cons.mp he with rfl | he
        · exact ⟨s.Name, rfl⟩
        · exact ih2 e he
      · rw [ih3, map_fst_mapDelete]
        rw [List.filter_filter]
        apply List.filter_congr
        intro k _
        simp only [List.all_cons]
        rw [Bool.and_comm]
      · show applyWEvents ((m.map Prod.fst).erase s.Name) _ = _
        rw [hWF.1.erase_eq_filter, ← map_fst_mapDelete, ih4]
      · intro n hn hex
        by_cases hsn : s.Name = n
        · rw [← hsn]
          exact List.mem_cons_self _ _
        · obtain ⟨s', hs', hs'n⟩ := hex
          rcases List.mem_cons.mp hs' with rfl | hs'
          · exact absurd hs'n hsn
          · refine List.mem_cons_of_mem _ (ih5 n ?_ ⟨s', hs', hs'n⟩)
            rw [map_fst_mapDelete, List.mem_filter]
            refine ⟨hn, ?_⟩
            simp only [bne_iff_ne, ne_eq, decide_eq_true_eq]
            exact fun h => hsn h.symm
    | none =>
      have hnot : s.Name ∉ m.map Prod.fst := mapLookup_eq_none.mp hl
      obtain ⟨ih1, ih2, ih3, ih4, ih5⟩ := flushOldProbes_spec rs m hWF
      have heq : flushOldProbes m (s :: rs) = flushOldProbes m rs := by
        simp [flushOldProbes, hl]
      rw [heq]
      refine ⟨ih1, ih2, ?_, ih4, ?_⟩
      · rw [ih3]
        apply List.filter_congr
        intro k hk
        simp only [List.all_cons]
        have : k ≠ s.Name := fun hkn => hnot (hkn ▸ hk)
        simp [this]
      · intro n hn hex
        obtain ⟨s', hs', hs'n⟩ := hex
        rcases List.mem_cons.mp hs' with rfl | hs'
        · exact absurd (hs'n ▸ hn) hnot
        · exact ih5 n hn ⟨s', hs', hs'n⟩

/-! ### `createNewProbes`: behaviour of the create phase -/

theorem createNewProbes_spec (prep : S3Service → Bool) :
    ∀ (ts : List S3Service) (m : WMap), WMapWF m →
      (∀ s ∈ ts, s.Name ∉ m.map Prod.fst) →
      (ts.map S3Service.Name).Nodup →
      WMapWF (createNewProbes prep m ts).1 ∧
      (∀ e ∈ (createNewProbes prep m ts).2, ∃ n, e = WEvent.start n) ∧
      applyWEvents (m.map Prod.fst) (createNewProbes prep m ts).2
        = (createNewProbes prep m ts).1.map Prod.fst ∧
      (∀ p, p <+: (createNewProbes prep m ts).2 →
        (applyWEvents (m.map Prod.fst) p).Nodup) ∧
      (∀ s ∈ ts, prep s = true →
        WEvent.start s.Name ∈ (createNewProbes prep m ts).2)
  | [], m, hWF, _, _ => by
    refine ⟨hWF, by simp [createNewProbes], rfl, ?_, by simp [createNewProbes]⟩
    intro p hp
    have : p = [] := List.prefix_nil.mp (by simpa [createNewProbes] using hp)
    subst this
    exact hWF.1
  | s :: ts, m, hWF, hdisj, hts => by
    have hsm : s.Name ∉ m.map Prod.fst := hdisj s (List.mem_cons_self _ _)
    simp only [List.map_cons, List.nodup_cons] at hts
    cases hp : prep s with
    | false =>
      have heq : createNewProbes prep m (s :: ts) = createNewProbes prep m ts := by
        simp [createNewProbes, hp]
      obtain ⟨ih1, ih2, ih3, ih4, ih5⟩ := createNewProbes_spec prep ts m hWF
        (fun s' hs' => hdisj s' (List.mem_cons_of_mem _ hs')) hts.2
      rw [heq]
      refine ⟨ih1, ih2, ih3, ih4, ?_⟩
      intro s' hs' hps'
      rcases List.mem_cons.mp hs' with rfl | hs'
      · exact absurd hps' (by simp [hp])
      · exact ih5 s' hs' hps'
    | true =>
      have hkeys : (mapInsert m s.Name s).map Prod.fst = s.Name :: m.map Prod.fst :=
        map_fst_mapInsert_of_not_mem hsm
      have hWF' : WMapWF (mapInsert m s.Name s) := WMapWF_mapInsert hWF
      have hdisj' : ∀ s' ∈ ts, s'.Name ∉ (mapInsert m s.Name s).map Prod.fst := by
        intro s' hs'
        rw [hkeys]
        intro hmem
        rcases List.mem_cons.mp hmem with heq | hmem
        · exact hts.1 (heq ▸ List.mem_map_of_mem S3Service.Name hs')
        · exact hdisj s' (List.mem_cons_of_mem _ hs') hmem
      obtain ⟨ih1, ih2, ih3, ih4, ih5⟩ :=
        createNewProbes_spec prep ts (mapInsert m s.Name s) hWF' hdisj' hts.2
      have heq : createNewProbes prep m (s :: ts)
          = ((createNewProbes prep (mapInsert m s.Name s) ts).1,
             WEvent.start s.Name ::
               (createNewProbes prep (mapInsert m s.Name s) ts).2) := by
        simp [createNewProbes, hp]
      rw [heq]
      refine ⟨ih1, ?_, ?_, ?_, ?_⟩
      · intro e he
        rcases List.mem_cons.mp he with rfl | he
        · exact ⟨s.Name, rfl⟩
        · exact ih2 e he
      · show applyWEvents (s.Name :: m.map Prod.fst) _ = _
        rw [← hkeys]
        exact ih3
      · intro p hpfx
        rcases prefix_cons_cases hpfx with rfl | ⟨q, rfl, hq⟩
        · exact hWF.1
        · show (applyWEvents (s.Name :: m.map Prod.fst) q).Nodup
          rw [← hkeys]
          exact ih4 q hq
      · intro s' hs' hps'
        rcases List.mem_cons.mp hs' with rfl | hs'
        · exact List.mem_cons_self _ _
        · exact List.mem_cons_of_mem _ (ih5 s' hs' hps')

/-! ### Assembling one reconciliation cycle -/

theorem toAdd_names_not_in_flushed (B : List S3Service) (m : WMap)
    (hWF : WMapWF m) (hB : (B.map S3Service.Name).Nodup) :
    ∀ s ∈ (getServicesToModify B (getWatchedServices m)).1,
      s.Name ∉
        (flushOldProbes m (getServicesToModify B (getWatchedServices m)).2).1.map
          Prod.fst := by
  intro s hs hmem
  have hA : ((getWatchedServices m).map S3Service.Name).Nodup := by
    rw [watched_names_eq_keys hWF]; exact hWF.1
  obtain ⟨hsB, hsSpec⟩ := (mem_getSliceDiff hA s).mp hs
  obtain ⟨-, -, hkeys, -, -⟩ :=
    flushOldProbes_spec (getServicesToModify B (getWatchedServices m)).2 m hWF
  rw [hkeys, List.mem_filter] at hmem
  obtain ⟨hinm, hall⟩ := hmem
  have hwitness : ∃ a ∈ getWatchedServices m, a.Name = s.Name := by
    have : s.Name ∈ (getWatchedServices m).map S3Service.Name := by
      rw [watched_names_eq_keys hWF]; exact hinm
    obtain ⟨a, ha, han⟩ := List.mem_map.mp this
    exact ⟨a, ha, han⟩
  obtain ⟨a, haA, haname⟩ := hwitness
  rcases hsSpec with habs | ⟨a', ha', ha'name, ha'ne⟩
  · exact habs a haA haname
  · have ha'rem : a' ∈ (getServicesToModify B (getWatchedServices m)).2 := by
      refine (mem_getSliceDiff hB a').mpr ⟨ha', Or.inr ⟨s, hsB, ha'name.symm, ?_⟩⟩
      rw [S3Service.Equals_comm]; exact ha'ne
    have hne := List.all_eq_true.mp hall a' ha'rem
    simp only [bne_iff_ne, ne_eq, decide_eq_true_eq] at hne
    exact hne ha'name.symm

theorem toAdd_names_nodup (B A : List S3Service)
    (hB : (B.map S3Service.Name).Nodup) :
    ((getServicesToModify B A).1.map S3Service.Name).Nodup := by
  have hsub : (getServicesToModify B A).1.Sublist B := List.filter_sublist B
  exact hB.sublist (hsub.map S3Service.Name)

/-- **C2**. Invariant of the reconciliation loop, for one cycle run on a
well-formed watched map with candidate set `B` (distinct names): the event
trace is all `stop`s followed by all `start`s (every removed/changed
service is stopped and deregistered by `flushOldProbes` before
`createNewProbes` registers or launches anything); replaying any prefix of
the trace over the initially running workers leaves at most one running
worker per name; the final map is again well-formed and its keys are
exactly the workers left running; and a changed name (present in the
watched set, and present in `B` with an unequal configuration whose
preparation succeeds) is both stopped and started in the cycle — by the
ordering above, Worker→none→Worker, never two simultaneous workers. -/
theorem reconcileCycle_single_worker (prep : S3Service → Bool)
    (B : List S3Service) (m : WMap)
    (hWF : WMapWF m) (hB : (B.map S3Service.Name).Nodup) :
    (∃ t1 t2, (reconcileCycle prep B m).2 = t1 ++ t2 ∧
        (∀ e ∈ t1, ∃ n, e = WEvent.stop n) ∧
        (∀ e ∈ t2, ∃ n, e = WEvent.start n)) ∧
    (∀ p, p <+: (reconcileCycle prep B m).2 →
        ∀ n, (applyWEvents (m.map Prod.fst) p).count n ≤ 1) ∧
    WMapWF (reconcileCycle prep B m).1 ∧
    applyWEvents (m.map Prod.fst) (reconcileCycle prep B m).2
      = (reconcileCycle prep B m).1.map Prod.fst ∧
    (∀ n b, b ∈ B → b.Name = n → prep b = true →
        (∃ a ∈ getWatchedServices m, a.Name = n ∧ a.Equals b = false) →
        WEvent.stop n ∈ (reconcileCycle prep B m).2 ∧
        WEvent.start n ∈ (reconcileCycle prep B m).2) := by
  have hA : ((getWatchedServices m).map S3Service.Name).Nodup := by
    rw [watched_names_eq_keys hWF]; exact hWF.1
  obtain ⟨f1, f2, f3, f4, f5⟩ :=
    flushOldProbes_spec (getServicesToModify B (getWatchedServices m)).2 m hWF
  have hdisj := toAdd_names_not_in_flushed B m hWF hB
  have hnodupAdd := toAdd_names_nodup B (getWatchedServices m) hB
  obtain ⟨c1, c2, c3, c4, c5⟩ := createNewProbes_spec prep
    (getServicesToModify B (getWatchedServices m)).1
    (flushOldProbes m (getServicesToModify B (getWatchedServices m)).2).1
    f1 hdisj hnodupAdd
  have hfst : (reconcileCycle prep B m).1
      = (createNewProbes prep
          (flushOldProbes m (getServicesToModify B (getWatchedServices m)).2).1
          (getServicesToModify B (getWatchedServices m)).1).1 := rfl
  have hsnd : (reconcileCycle prep B m).2
      = (flushOldProbes m (getServicesToModify B (getWatchedServices m)).2).2
        ++ (createNewProbes prep
             (flushOldProbes m (getServicesToModify B (getWatchedServices m)).2).1
             (getServicesToModify B (getWatchedServices m)).1).2 := rfl
  refine ⟨⟨_, _, hsnd, f2, c2⟩, ?_, hfst ▸ c1, ?_, ?_⟩
  · intro p hp n
    rw [hsnd] at hp
    rcases prefix_append_cases _ hp with hpf | ⟨q, rfl, hq⟩
    · have hnodup : (applyWEvents (m.map Prod.fst) p).Nodup :=
        applyWEvents_stops_nodup
          (fun e he => f2 e (hpf.sublist.subset he)) hWF.1
      exact List.nodup_iff_count_le_one.mp hnodup n
    · have : applyWEvents (m.map Prod.fst)
            ((flushOldProbes m (getServicesToModify B (getWatchedServices m)).2).2
              ++ q)
          = applyWEvents
              ((flushOldProbes m (getServicesToModify B (getWatchedServices m)).2).1.map
                Prod.fst) q := by
        rw [applyWEvents_append, f4]
      rw [this]
      exact List.nodup_iff_count_le_one.mp (c4 q hq) n
  · rw [hsnd, applyWEvents_append, f4, c3, hfst]
  · intro n b hbB hbname hprep hchanged
    obtain ⟨a, haA, haname, hane⟩ := hchanged
    have harem : a ∈ (getServicesToModify B (getWatchedServices m)).2 := by
      refine (mem_getSliceDiff hB a).mpr
        ⟨haA, Or.inr ⟨b, hbB, hbname.trans haname.symm, ?_⟩⟩
      rw [S3Service.Equals_comm]; exact hane
    have hnkeys : n ∈ m.map Prod.fst := by
      rw [← watched_names_eq_keys hWF]
      exact haname ▸ List.mem_map_of_mem S3Service.Name haA
    have hstop := f5 n hnkeys ⟨a, harem, haname⟩
    have hbadd : b ∈ (getServicesToModify B (getWatchedServices m)).1 :=
      (mem_getSliceDiff hA b).mpr
        ⟨hbB, Or.inr ⟨a, haA, haname.trans hbname.symm, hane⟩⟩
    have hstart := c5 b hbadd hprep
    rw [hsnd]
    exact ⟨List.mem_append_left _ hstop,
      List.mem_append_right _ (hbname ▸ hstart)⟩

/-- Witness inputs for the cycle invariant: one watched service `s1` at
`addr1`, rediscovered at `addr2` (a changed service), every preparation
succeeding. -/
def sampleMapC2 : WMap :=
  [("s1",
    { Name := "s1", Endpoint := "addr1", Gateway := false,
      GatewayReadEnpoints := [] })]

def sampleConsulC2 : List S3Service :=
  [{ Name := "s1", Endpoint := "addr2", Gateway := false,
     GatewayReadEnpoints := [] }]

def prepAlways : S3Service → Bool := fun _ => true

theorem reconcileCycle_single_worker_witness :
    (WMapWF sampleMapC2 ∧ (sampleConsulC2.map S3Service.Name).Nodup) ∧
    ((∃ t1 t2,
        (reconcileCycle prepAlways sampleConsulC2 sampleMapC2).2 = t1 ++ t2 ∧
        (∀ e ∈ t1, ∃ n, e = WEvent.stop n) ∧
        (∀ e ∈ t2, ∃ n, e = WEvent.start n)) ∧
     (∀ p, p <+: (reconcileCycle prepAlways sampleConsulC2 sampleMapC2).2 →
        ∀ n, (applyWEvents (sampleMapC2.map Prod.fst) p).count n ≤ 1) ∧
     WMapWF (reconcileCycle prepAlways sampleConsulC2 sampleMapC2).1 ∧
     applyWEvents (sampleMapC2.map Prod.fst)
        (reconcileCycle prepAlways sampleConsulC2 sampleMapC2).2
       = (reconcileCycle prepAlways sampleConsulC2 sampleMapC2).1.map Prod.fst ∧
     (∀ n b, b ∈ sampleConsulC2 → b.Name = n → prepAlways b = true →
        (∃ a ∈ getWatchedServices sampleMapC2, a.Name = n ∧ a.Equals b = false) →
        WEvent.stop n ∈ (reconcileCycle prepAlways sampleConsulC2 sampleMapC2).2 ∧
        WEvent.start n ∈
          (reconcileCycle prepAlways sampleConsulC2 sampleMapC2).2)) :=
  ⟨⟨⟨by decide, by decide⟩, by decide⟩,
   reconcileCycle_single_worker prepAlways sampleConsulC2 sampleMapC2
     ⟨by decide, by decide⟩ (by decide)⟩

/-! ## Probe model (`pkg/probe/probe.go`)

The probe talks to S3 backends through minio clients.  A backend's state
is the set of existing buckets and the objects each holds; the
collaborator's failure behaviour is an environment of per-operation
responses.  `ListObjects` streams `{name, error}` items over a channel,
modelled as the finite list of items the server emits. -/

structure S3State where
  buckets : List String
  objects : String → List String

def putName (l : List String) (n : String) : List String :=
  if n ∈ l then l else l ++ [n]

def S3State.putObject (st : S3State) (bucket name : String) : S3State :=
  { st with objects := fun b =>
      if b = bucket then putName (st.objects b) name else st.objects b }

def S3State.makeBucket (st : S3State) (bucket : String) : S3State :=
  { st with buckets := bucket :: st.buckets }

inductive S3Err where
  | bucketExistsErr (bucket : String)
  | makeBucketErr (bucket : String)
  | listErr (bucket : String)
  | noGatewayDestinations
deriving DecidableEq, Repr

/-- One item coming over the `ListObjects` channel. -/
inductive ListItem where
  | obj (name : String)
  | err (e : S3Err)
deriving DecidableEq, Repr

structure S3Env where
  bucketExistsErr : String → Bool
  makeBucketErr : String → Bool
  listStream : String → List ListItem
  putErr : String → String → Bool

/-- The fields of `Probe` the modelled functions read. -/
structure ProbeCfg where
  name : String
  latencyBucketName : String
  durabilityBucketName : String
  gatewayBucketName : String
  durabilityItemTotal : Nat
  latencyItemSize : Nat
  latencyTimeout : Nat
  durabilityTimeout : Nat
deriving Repr

/-- The counting loop over the `ListObjects` channel (shared by
`performDurabilityChecks` and `checkDurabilityBucketHasEnoughObject`):
each object increments the counter, the first item carrying an error
aborts the loop with that error. -/
def countObjects : Nat → List ListItem → Except S3Err Nat
  | acc, [] => .ok acc
  | _, .err e :: _ => .error e
  | acc, .obj _ :: rest => countObjects (acc + 1) rest

def checkDurabilityBucketHasEnoughObject (env : S3Env) (p : ProbeCfg) :
    Except S3Err Bool :=
  match countObjects 0 (env.listStream p.durabilityBucketName) with
  | .error e => .error e
  | .ok n => .ok (decide (p.durabilityItemTotal ≤ n))

/-- The seeding loop of `prepareDurabilityBucket`: writes
`fake-item-<i>` for each index.  The Go code retries a failed `PutObject`
every five seconds forever; under an attempt-invariant environment the
retry loop either succeeds at once or never returns, so a failing put
yields `none` (the loop never terminates). -/
def seedItems (env : S3Env) (bucket : String) :
    List Nat → S3State → Option (S3State × List (String × String))
  | [], st => some (st, [])
  | i :: rest, st =>
    let objectName := "fake-item-" ++ toString i
    if env.putErr bucket objectName then
      none
    else
      match seedItems env bucket rest (st.putObject bucket objectName) with
      | none => none
      | some (st', ps) => some (st', (bucket, objectName) :: ps)

/-- `prepareDurabilityBucket`: result, final backend state, the puts
performed, and the number of `probe_bucket_created_total` increments.
Control flow from the source: an erroring existence check aborts; an
existing bucket with enough objects returns nil early; an existing bucket
without enough objects falls through to the seeding loop; a missing
bucket is created and then seeded. -/
def prepareDurabilityBucket (env : S3Env) (st : S3State) (p : ProbeCfg) :
    Option (Except S3Err Unit × S3State × List (String × String) × Nat) :=
  if env.bucketExistsErr p.durabilityBucketName then
    some (.error (.bucketExistsErr p.durabilityBucketName), st, [], 0)
  else if p.durabilityBucketName ∈ st.buckets then
    match checkDurabilityBucketHasEnoughObject env p with
    | .error e => some (.error e, st, [], 0)
    | .ok true => some (.ok (), st, [], 0)
    | .ok false =>
      match seedItems env p.durabilityBucketName
          (List.range p.durabilityItemTotal) st with
      | none => none
      | some (st', ps) => some (.ok (), st', ps, 1)
  else if env.makeBucketErr p.durabilityBucketName then
    some (.error (.makeBucketErr p.durabilityBucketName), st, [], 0)
  else
    match seedItems env p.durabilityBucketName
        (List.range p.durabilityItemTotal)
        (st.makeBucket p.durabilityBucketName) with
    | none => none
    | some (st', ps) => some (.ok (), st', ps, 1)

/-- `prepareLatencyBucket`: result, final state, counter increments, and
whether the one-day expiry lifecycle was attached (done after a
successful creation; its own error is discarded by the source). -/
def prepareLatencyBucket (env : S3Env) (st : S3State) (p : ProbeCfg) :
    Except S3Err Unit × S3State × Nat × Bool :=
  if env.bucketExistsErr p.latencyBucketName then
    (.error (.bucketExistsErr p.latencyBucketName), st, 0, false)
  else if p.latencyBucketName ∈ st.buckets then
    (.ok (), st, 0, false)
  else if env.makeBucketErr p.latencyBucketName then
    (.error (.makeBucketErr p.latencyBucketName), st, 1, false)
  else
    (.ok (), st.makeBucket p.latencyBucketName, 1, true)

/-- The `p.gateway == false` branch of `PrepareProbing`:
`prepareLatencyBucket` then `prepareDurabilityBucket`, aborting on the
first error.  Returns the result, the final backend state and all object
puts performed. -/
def PrepareProbingSimple (env : S3Env) (st : S3State) (p : ProbeCfg) :
    Option (Except S3Err Unit × S3State × List (String × String)) :=
  match prepareLatencyBucket env st p with
  | (.error e, st1, _, _) => some (.error e, st1, [])
  | (.ok (), st1, _, _) =>
    match prepareDurabilityBucket env st1 p with
    | none => none
    | some (r, st2, ps, _) => some (r, st2, ps)

/-! ### C3: durability-bucket preparation on an existing, under-filled bucket -/

theorem seedItems_of_no_putErr (env : S3Env) (bucket : String)
    (hput : ∀ name, env.putErr bucket name = false) :
    ∀ (is : List Nat) (st : S3State),
      ∃ st', seedItems env bucket is st
        = some (st', is.map (fun i => (bucket, "fake-item-" ++ toString i)))
  | [], st => ⟨st, rfl⟩
  | i :: rest, st => by
    obtain ⟨st', h⟩ := seedItems_of_no_putErr env bucket hput rest
      (st.putObject bucket ("fake-item-" ++ toString i))
    refine ⟨st', ?_⟩
    simp only [seedItems, hput, Bool.false_eq_true, if_false, h, List.map_cons]

/-- **C3** (amended).  For a Simple-role target whose durability bucket
already exists but whose listing reports fewer than `durabilityItemTotal`
objects, `prepareDurabilityBucket` does *not* return early: it falls
through to the seeding loop, writes the full set of `durabilityItemTotal`
objects `fake-item-0 … fake-item-(n-1)`, increments the bucket-preparation
counter, and returns success.  (Objects are seeded both when the bucket
is newly created and when it exists with too few objects.) -/
theorem prepareDurabilityBucket_reseeds_when_too_few (env : S3Env) (st : S3State)
    (p : ProbeCfg) (k : Nat)
    (hex : env.bucketExistsErr p.durabilityBucketName = false)
    (hmem : p.durabilityBucketName ∈ st.buckets)
    (hcnt : countObjects 0 (env.listStream p.durabilityBucketName) = .ok k)
    (hfew : k < p.durabilityItemTotal)
    (hput : ∀ name, env.putErr p.durabilityBucketName name = false) :
    ∃ st', prepareDurabilityBucket env st p
      = some (.ok (), st',
          (List.range p.durabilityItemTotal).map
            (fun i => (p.durabilityBucketName, "fake-item-" ++ toString i)),
          1) := by
  obtain ⟨st', hseed⟩ := seedItems_of_no_putErr env p.durabilityBucketName hput
    (List.range p.durabilityItemTotal) st
  refine ⟨st', ?_⟩
  unfold prepareDurabilityBucket
  rw [hex]
  simp only [Bool.false_eq_true, if_false, if_pos hmem]
  unfold checkDurabilityBucketHasEnoughObject
  rw [hcnt]
  have hdec : decide (p.durabilityItemTotal ≤ k) = false :=
    decide_eq_false (Nat.not_le.mpr hfew)
  simp only [hdec, hseed]

/-- Concrete fault-free environment and state for the C3 inputs: the
durability bucket exists and the backend lists a single object while
`durabilityItemTotal` is 3. -/
def envNoFault3 : S3Env :=
  { bucketExistsErr := fun _ => false
    makeBucketErr := fun _ => false
    listStream := fun b => if b = "durability" then [ListItem.obj "fake-item-0"] else []
    putErr := fun _ _ => false }

def stExisting3 : S3State :=
  { buckets := ["durability", "latency"]
    objects := fun b => if b = "durability" then ["fake-item-0"] else [] }

def cfg3 : ProbeCfg :=
  { name := "test", latencyBucketName := "latency"
    durabilityBucketName := "durability", gatewayBucketName := "gateway"
    durabilityItemTotal := 3, latencyItemSize := 16
    latencyTimeout := 10, durabilityTimeout := 60 }

/-- C3 as stated is false: on an existing durability bucket listing only
1 of 3 expected objects, the preparation returns success *and* performs
three object writes (it does top up), rather than writing nothing. -/
theorem prepareDurabilityBucket_existing_writes_cex :
    (prepareDurabilityBucket envNoFault3 stExisting3 cfg3).map
        (fun r => (r.1, r.2.2.1.length, r.2.2.2))
      = some (Except.ok (), 3, 1) ∧
    ¬ ((prepareDurabilityBucket envNoFault3 stExisting3 cfg3).map
        (fun r => r.2.2.1)) = some [] := by
  exact ⟨rfl, by decide⟩

theorem prepareDurabilityBucket_reseeds_witness :
    (envNoFault3.bucketExistsErr cfg3.durabilityBucketName = false ∧
     cfg3.durabilityBucketName ∈ stExisting3.buckets ∧
     countObjects 0 (envNoFault3.listStream cfg3.durabilityBucketName)
       = .ok 1 ∧
     1 < cfg3.durabilityItemTotal ∧
     (∀ name, envNoFault3.putErr cfg3.durabilityBucketName name = false)) ∧
    (∃ st', prepareDurabilityBucket envNoFault3 stExisting3 cfg3
      = some (.ok (), st',
          (List.range cfg3.durabilityItemTotal).map
            (fun i => (cfg3.durabilityBucketName, "fake-item-" ++ toString i)),
          1)) :=
  ⟨⟨rfl, by decide, rfl, by decide, fun _ => rfl⟩,
   prepareDurabilityBucket_reseeds_when_too_few envNoFault3 stExisting3 cfg3 1
     rfl (by decide) rfl (by decide) (fun _ => rfl)⟩

/-! ### C4: gateway-bucket preparation (`prepareGatewayBucket`)

Each gateway read endpoint is a separate backend: its own client state
and failure environment. -/

structure EndpointWorld where
  name : String
  env : S3Env
  st : S3State

/-- An endpoint fails gateway preparation when its existence check errors,
or the bucket is absent and its creation errors. -/
def epFault (bucket : String) (e : EndpointWorld) : Prop :=
  e.env.bucketExistsErr bucket = true ∨
    (bucket ∉ e.st.buckets ∧ e.env.makeBucketErr bucket = true)

instance (bucket : String) (e : EndpointWorld) : Decidable (epFault bucket e) := by
  unfold epFault
  infer_instance

/-- The loop of `prepareGatewayBucket`: for each endpoint in order, check
bucket existence (an error returns immediately), skip existing buckets,
otherwise create the bucket (an error returns immediately) and attach the
one-day expiry lifecycle.  Returns the result, the endpoint worlds after
the call, the names of the endpoints whose existence check was invoked
(in order), and the names of the endpoints where the bucket was created. -/
def prepGatewayLoop (bucket : String) :
    List EndpointWorld →
      Except S3Err Unit × List EndpointWorld × List String × List String
  | [] => (.ok (), [], [], [])
  | e :: rest =>
    if e.env.bucketExistsErr bucket then
      (.error (.bucketExistsErr bucket), e :: rest, [e.name], [])
    else if bucket ∈ e.st.buckets then
      let next := prepGatewayLoop bucket rest
      (next.1, e :: next.2.1, e.name :: next.2.2.1, next.2.2.2)
    else if e.env.makeBucketErr bucket then
      (.error (.makeBucketErr bucket), e :: rest, [e.name], [])
    else
      let next := prepGatewayLoop bucket rest
      (next.1, { e with st := e.st.makeBucket bucket } :: next.2.1,
       e.name :: next.2.2.1, e.name :: next.2.2.2)

def prepareGatewayBucket (bucket : String) (eps : List EndpointWorld) :
    Except S3Err Unit × List EndpointWorld × List String × List String :=
  if eps.length = 0 then (.error .noGatewayDestinations, eps, [], [])
  else prepGatewayLoop bucket eps

theorem prepGatewayLoop_ok (bucket : String) :
    ∀ eps : List EndpointWorld, (∀ e ∈ eps, ¬ epFault bucket e) →
      (prepGatewayLoop bucket eps).1 = .ok () ∧
      (prepGatewayLoop bucket eps).2.2.1 = eps.map EndpointWorld.name ∧
      ∀ w ∈ (prepGatewayLoop bucket eps).2.1, bucket ∈ w.st.buckets
  | [], _ => ⟨rfl, rfl, by simp [prepGatewayLoop]⟩
  | e :: rest, hfault => by
    have he := hfault e (List.mem_cons_self _ _)
    unfold epFault at he
    push_neg at he
    have hex : e.env.bucketExistsErr bucket = false := by
      cases h : e.env.bucketExistsErr bucket
      · rfl
      · exact absurd h he.1
    obtain ⟨ih1, ih2, ih3⟩ := prepGatewayLoop_ok bucket rest
      (fun e' he' => hfault e' (List.mem_cons_of_mem _ he'))
    by_cases hmem : bucket ∈ e.st.buckets
    · have heq : prepGatewayLoop bucket (e :: rest)
          = ((prepGatewayLoop bucket rest).1,
             e :: (prepGatewayLoop bucket rest).2.1,
             e.name :: (prepGatewayLoop bucket rest).2.2.1,
             (prepGatewayLoop bucket rest).2.2.2) := by
        simp [prepGatewayLoop, hex, hmem]
      rw [heq]
      refine ⟨ih1, by simp [ih2], ?_⟩
      intro w hw
      rcases List.mem_cons.mp hw with rfl | hw
      · exact hmem
      · exact ih3 w hw
    · have hmk : e.env.makeBucketErr bucket = false := by
        cases h : e.env.makeBucketErr bucket
        · rfl
        · exact absurd h (he.2 hmem)
      have heq : prepGatewayLoop bucket (e :: rest)
          = ((prepGatewayLoop bucket rest).1,
             { e with st := e.st.makeBucket bucket }
               :: (prepGatewayLoop bucket rest).2.1,
             e.name :: (prepGatewayLoop bucket rest).2.2.1,
             e.name :: (prepGatewayLoop bucket rest).2.2.2) := by
        simp [prepGatewayLoop, hex, hmem, hmk]
      rw [heq]
      refine ⟨ih1, by simp [ih2], ?_⟩
      intro w hw
      rcases List.mem_cons.mp hw with rfl | hw
      · exact List.mem_cons_self _ _
      · exact ih3 w hw

theorem prepGatewayLoop_first_fault (bucket : String) :
    ∀ (eps : List EndpointWorld) (k : Nat) (e₀ : EndpointWorld),
      (∀ e ∈ eps.take k, ¬ epFault bucket e) → eps[k]? = some e₀ →
      epFault bucket e₀ →
      (∃ er, (prepGatewayLoop bucket eps).1 = .error er) ∧
      (prepGatewayLoop bucket eps).2.2.1
        = (eps.take (k + 1)).map EndpointWorld.name ∧
      (prepGatewayLoop bucket eps).2.1.drop k = eps.drop k
  | [], k, e₀, _, hk, _ => by simp at hk
  | e :: rest, 0, e₀, _, hk, hfault => by
    simp only [List.getElem?_cons_zero, Option.some.injEq] at hk
    subst hk
    rcases hfault with hex | ⟨hmem, hmk⟩
    · have heq : prepGatewayLoop bucket (e :: rest)
          = (.error (.bucketExistsErr bucket), e :: rest, [e.name], []) := by
        simp [prepGatewayLoop, hex]
      rw [heq]
      exact ⟨⟨_, rfl⟩, by simp, rfl⟩
    · cases hex : e.env.bucketExistsErr bucket
      · have heq : prepGatewayLoop bucket (e :: rest)
            = (.error (.makeBucketErr bucket), e :: rest, [e.name], []) := by
          simp [prepGatewayLoop, hex, hmem, hmk]
        rw [heq]
        exact ⟨⟨_, rfl⟩, by simp, rfl⟩
      · have heq : prepGatewayLoop bucket (e :: rest)
            = (.error (.bucketExistsErr bucket), e :: rest, [e.name], []) := by
          simp [prepGatewayLoop, hex]
        rw [heq]
        exact ⟨⟨_, rfl⟩, by simp, rfl⟩
  | e :: rest, k + 1, e₀, hpre, hk, hfault => by
    have he : ¬ epFault bucket e :=
      hpre e (by simp [List.take_cons])
    unfold epFault at he
    push_neg at he
    have hex : e.env.bucketExistsErr bucket = false := by
      cases h : e.env.bucketExistsErr bucket
      · rfl
      · exact absurd h he.1
    simp only [List.getElem?_cons_succ] at hk
    have hpre' : ∀ e' ∈ rest.take k, ¬ epFault bucket e' := by
      intro e' he'
      exact hpre e' (by simp [List.take_cons, he'])
    obtain ⟨ih1, ih2, ih3⟩ :=
      prepGatewayLoop_first_fault bucket rest k e₀ hpre' hk hfault
    by_cases hmem : bucket ∈ e.st.buckets
    · have heq : prepGatewayLoop bucket (e :: rest)
          = ((prepGatewayLoop bucket rest).1,
             e :: (prepGatewayLoop bucket rest).2.1,
             e.name :: (prepGatewayLoop bucket rest).2.2.1,
             (prepGatewayLoop bucket rest).2.2.2) := by
        simp [prepGatewayLoop, hex, hmem]
      rw [heq]
      exact ⟨ih1, by simp [ih2], by simpa using ih3⟩
    · have hmk : e.env.makeBucketErr bucket = false := by
        cases h : e.env.makeBucketErr bucket
        · rfl
        · exact absurd h (he.2 hmem)
      have heq : prepGatewayLoop bucket (e :: rest)
          = ((prepGatewayLoop bucket rest).1,
             { e with st := e.st.makeBucket bucket }
               :: (prepGatewayLoop bucket rest).2.1,
             e.name :: (prepGatewayLoop bucket rest).2.2.1,
             e.name :: (prepGatewayLoop bucket rest).2.2.2) := by
        simp [prepGatewayLoop, hex, hmem, hmk]
      rw [heq]
      exact ⟨ih1, by simp [ih2], by simpa using ih3⟩

/-- **C4** (amended).  `prepareGatewayBucket` returns an error immediately
when the list of gateway endpoints is empty.  Otherwise it walks the
replicas in order but stops at the *first* replica whose existence check
or bucket creation fails, returning that error without touching the
remaining replicas (they are neither checked nor modified); only when no
replica fails does it process every replica (creating the bucket and
attaching the expiry policy where absent) and return success. -/
theorem prepareGatewayBucket_first_error (bucket : String)
    (eps : List EndpointWorld) :
    (eps.length = 0 →
      prepareGatewayBucket bucket eps
        = (.error .noGatewayDestinations, eps, [], [])) ∧
    (eps ≠ [] → (∀ e ∈ eps, ¬ epFault bucket e) →
      (prepareGatewayBucket bucket eps).1 = .ok () ∧
      (prepareGatewayBucket bucket eps).2.2.1 = eps.map EndpointWorld.name ∧
      ∀ w ∈ (prepareGatewayBucket bucket eps).2.1, bucket ∈ w.st.buckets) ∧
    (∀ k e₀, (∀ e ∈ eps.take k, ¬ epFault bucket e) → eps[k]? = some e₀ →
      epFault bucket e₀ →
      (∃ er, (prepareGatewayBucket bucket eps).1 = .error er) ∧
      (prepareGatewayBucket bucket eps).2.2.1
        = (eps.take (k + 1)).map EndpointWorld.name ∧
      (prepareGatewayBucket bucket eps).2.1.drop k = eps.drop k) := by
  refine ⟨fun hlen => ?_, fun hne hfault => ?_, fun k e₀ hpre hk hfault => ?_⟩
  · unfold prepareGatewayBucket
    rw [if_pos hlen]
  · have hlen : ¬ eps.length = 0 := fun h => hne (List.length_eq_zero.mp h)
    have heq : prepareGatewayBucket bucket eps = prepGatewayLoop bucket eps := by
      unfold prepareGatewayBucket
      rw [if_neg hlen]
    rw [heq]
    exact prepGatewayLoop_ok bucket eps hfault
  · have hne : ¬ eps.length = 0 := by
      intro h
      rw [List.length_eq_zero.mp h] at hk
      simp at hk
    have heq : prepareGatewayBucket bucket eps = prepGatewayLoop bucket eps := by
      unfold prepareGatewayBucket
      rw [if_neg hne]
    rw [heq]
    exact prepGatewayLoop_first_fault bucket eps k e₀ hpre hk hfault

/-- Two gateway endpoints: the existence check errors on the first and
everything succeeds on the second. -/
def gwCexEp1 : EndpointWorld :=
  { name := "ep1"
    env := { bucketExistsErr := fun _ => true, makeBucketErr := fun _ => false
             listStream := fun _ => [], putErr := fun _ _ => false }
    st := { buckets := [], objects := fun _ => [] } }

def gwCexEp2 : EndpointWorld :=
  { name := "ep2"
    env := { bucketExistsErr := fun _ => false, makeBucketErr := fun _ => false
             listStream := fun _ => [], putErr := fun _ _ => false }
    st := { buckets := [], objects := fun _ => [] } }

def gwCexEndpoints : List EndpointWorld := [gwCexEp1, gwCexEp2]

/-- C4 as stated is false: with two replicas where the first one's
existence check errors, `prepareGatewayBucket` returns that error after
visiting only the first replica — the second replica is never checked,
contradicting "it processes every replica in the list even if one of them
fails". -/
theorem prepareGatewayBucket_skips_rest_cex :
    (prepareGatewayBucket "gateway" gwCexEndpoints).2.2.1 = ["ep1"] ∧
    "ep2" ∉ (prepareGatewayBucket "gateway" gwCexEndpoints).2.2.1 ∧
    (prepareGatewayBucket "gateway" gwCexEndpoints).1
      = .error (.bucketExistsErr "gateway") :=
  ⟨by decide, by decide, rfl⟩

theorem prepareGatewayBucket_first_error_witness :
    ((∀ e ∈ gwCexEndpoints.take 0, ¬ epFault "gateway" e) ∧
     gwCexEndpoints[0]? = some gwCexEp1 ∧ epFault "gateway" gwCexEp1) ∧
    ((∃ er, (prepareGatewayBucket "gateway" gwCexEndpoints).1 = .error er) ∧
     (prepareGatewayBucket "gateway" gwCexEndpoints).2.2.1
       = (gwCexEndpoints.take 1).map EndpointWorld.name ∧
     (prepareGatewayBucket "gateway" gwCexEndpoints).2.1.drop 0
       = gwCexEndpoints.drop 0) :=
  ⟨⟨by simp, rfl, by decide⟩,
   (prepareGatewayBucket_first_error "gateway" gwCexEndpoints).2.2 0 gwCexEp1
     (by simp) rfl (by decide)⟩

/-! ### C7: the durability check and its two gauges -/

/-- `performDurabilityChecks`: the expected-items gauge is set to
`durabilityItemTotal` *before* the bucket is listed; the counting loop
aborts on a listing error, leaving the found-items gauge untouched for
that cycle; otherwise the found-items gauge records the count.  Returns
the result and the writes to the expected-items and found-items gauges,
in order. -/
def performDurabilityChecks (env : S3Env) (p : ProbeCfg) :
    Except S3Err Unit × List Nat × List Nat :=
  let expectedWrites := [p.durabilityItemTotal]
  match countObjects 0 (env.listStream p.durabilityBucketName) with
  | .error e => (.error e, expectedWrites, [])
  | .ok n => (.ok (), expectedWrites, [n])

/-- **C7** (amended).  A durability-check invocation whose listing errors
aborts without writing the found-items gauge, but the expected-items
gauge has already been set to `durabilityItemTotal` at the start of the
invocation; an error-free invocation records expected =
`durabilityItemTotal` and found = the observed object count. -/
theorem performDurabilityChecks_gauges (env : S3Env) (p : ProbeCfg) :
    ((∃ e, countObjects 0 (env.listStream p.durabilityBucketName) = .error e) →
      (∃ e, (performDurabilityChecks env p).1 = .error e) ∧
      (performDurabilityChecks env p).2.1 = [p.durabilityItemTotal] ∧
      (performDurabilityChecks env p).2.2 = []) ∧
    (∀ n, countObjects 0 (env.listStream p.durabilityBucketName) = .ok n →
      (performDurabilityChecks env p).1 = .ok () ∧
      (performDurabilityChecks env p).2.1 = [p.durabilityItemTotal] ∧
      (performDurabilityChecks env p).2.2 = [n]) := by
  unfold performDurabilityChecks
  cases hcnt : countObjects 0 (env.listStream p.durabilityBucketName) with
  | error e =>
    exact ⟨fun _ => ⟨⟨e, rfl⟩, rfl, rfl⟩, fun n hn => Except.noConfusion hn⟩
  | ok n =>
    refine ⟨fun ⟨e, he⟩ => Except.noConfusion he, fun n' hn' => ?_⟩
    injection hn' with hn'
    subst hn'
    exact ⟨rfl, rfl, rfl⟩

/-- Environment whose durability-bucket listing emits one object and then
an error. -/
def envListErr7 : S3Env :=
  { bucketExistsErr := fun _ => false
    makeBucketErr := fun _ => false
    listStream := fun b =>
      if b = "durability" then
        [ListItem.obj "fake-item-0", ListItem.err (.listErr "durability")]
      else []
    putErr := fun _ _ => false }

/-- C7 as stated is false: on a listing error the invocation aborts, yet
the expected-items gauge *was* mutated for that cycle (set to
`durabilityItemTotal` before the listing started); only the found-items
gauge is left untouched. -/
theorem performDurabilityChecks_sets_expected_cex :
    (performDurabilityChecks envListErr7 cfg3).1
      = .error (.listErr "durability") ∧
    (performDurabilityChecks envListErr7 cfg3).2.1 = [3] ∧
    (performDurabilityChecks envListErr7 cfg3).2.1 ≠ [] ∧
    (performDurabilityChecks envListErr7 cfg3).2.2 = [] :=
  ⟨rfl, by decide, by decide, by decide⟩

theorem performDurabilityChecks_gauges_witness :
    (∃ e, countObjects 0 (envListErr7.listStream cfg3.durabilityBucketName)
      = .error e) ∧
    ((∃ e, (performDurabilityChecks envListErr7 cfg3).1 = .error e) ∧
     (performDurabilityChecks envListErr7 cfg3).2.1
       = [cfg3.durabilityItemTotal] ∧
     (performDurabilityChecks envListErr7 cfg3).2.2 = []) :=
  ⟨⟨.listErr "durability", rfl⟩,
   (performDurabilityChecks_gauges envListErr7 cfg3).1
     ⟨.listErr "durability", rfl⟩⟩

/-! ### C8: preparation is idempotent on an already-prepared Simple target -/

/-- Running the Simple-role preparation phase twice in succession,
feeding the state left by the first call into the second; the result is
the second call's outcome. -/
def prepareTwiceSimple (env : S3Env) (st : S3State) (p : ProbeCfg) :
    Option (Except S3Err Unit × S3State × List (String × String)) :=
  match PrepareProbingSimple env st p with
  | none => none
  | some (_, st1, _) => PrepareProbingSimple env st1 p

/-- **C8**.  For a Simple-role target whose latency bucket exists and
whose durability bucket exists and lists at least `durabilityItemTotal`
objects (with error-free existence checks and listing), the preparation
phase returns no error and writes no objects, leaves the backend state
unchanged, and calling it twice in succession does the same on both
calls — no duplicate seeding, object counts unchanged. -/
theorem PrepareProbingSimple_idempotent (env : S3Env) (st : S3State)
    (p : ProbeCfg) (k : Nat)
    (hlatErr : env.bucketExistsErr p.latencyBucketName = false)
    (hlat : p.latencyBucketName ∈ st.buckets)
    (hdurErr : env.bucketExistsErr p.durabilityBucketName = false)
    (hdur : p.durabilityBucketName ∈ st.buckets)
    (hcnt : countObjects 0 (env.listStream p.durabilityBucketName) = .ok k)
    (henough : p.durabilityItemTotal ≤ k) :
    PrepareProbingSimple env st p = some (.ok (), st, []) ∧
    prepareTwiceSimple env st p = some (.ok (), st, []) := by
  have hlatprep : prepareLatencyBucket env st p = (.ok (), st, 0, false) := by
    unfold prepareLatencyBucket
    rw [hlatErr]
    simp [hlat]
  have hdurprep : prepareDurabilityBucket env st p = some (.ok (), st, [], 0) := by
    unfold prepareDurabilityBucket
    rw [hdurErr]
    simp only [Bool.false_eq_true, if_false, if_pos hdur]
    unfold checkDurabilityBucketHasEnoughObject
    rw [hcnt]
    simp only [decide_eq_true henough]
  have h1 : PrepareProbingSimple env st p = some (.ok (), st, []) := by
    unfold PrepareProbingSimple
    simp only [hlatprep, hdurprep]
  refine ⟨h1, ?_⟩
  unfold prepareTwiceSimple
  rw [h1]
  exact h1

/-- An already-prepared Simple target: both buckets exist and the
durability bucket lists exactly the three seeded objects. -/
def envPrepared8 : S3Env :=
  { bucketExistsErr := fun _ => false
    makeBucketErr := fun _ => false
    listStream := fun b =>
      if b = "durability" then
        [ListItem.obj "fake-item-0", ListItem.obj "fake-item-1",
         ListItem.obj "fake-item-2"]
      else []
    putErr := fun _ _ => false }

def stPrepared8 : S3State :=
  { buckets := ["latency", "durability"]
    objects := fun b =>
      if b = "durability" then
        ["fake-item-0", "fake-item-1", "fake-item-2"]
      else [] }

theorem PrepareProbingSimple_idempotent_witness :
    (envPrepared8.bucketExistsErr cfg3.latencyBucketName = false ∧
     cfg3.latencyBucketName ∈ stPrepared8.buckets ∧
     envPrepared8.bucketExistsErr cfg3.durabilityBucketName = false ∧
     cfg3.durabilityBucketName ∈ stPrepared8.buckets ∧
     countObjects 0 (envPrepared8.listStream cfg3.durabilityBucketName)
       = .ok 3 ∧
     cfg3.durabilityItemTotal ≤ 3) ∧
    (PrepareProbingSimple envPrepared8 stPrepared8 cfg3
       = some (.ok (), stPrepared8, []) ∧
     prepareTwiceSimple envPrepared8 stPrepared8 cfg3
       = some (.ok (), stPrepared8, [])) :=
  ⟨⟨rfl, by decide, rfl, by decide, rfl, by decide⟩,
   PrepareProbingSimple_idempotent envPrepared8 stPrepared8 cfg3 3
     rfl (by decide) rfl (by decide) rfl (by decide)⟩

/-! ### C5: the latency check

`randomHex(n)` reads `n` random bytes from `crypto/rand` and hex-encodes
them; the random source is modelled as a byte stream.  The four check
steps run through `mesureOperation`, which wraps the operation in its own
timeout context derived from the worker's check timeout and records the
total counter and both latency metrics unconditionally, the success
counter only on success. -/

def hexDigit (n : Nat) : Char :=
  if n < 10 then Char.ofNat (48 + n) else Char.ofNat (87 + n)

def hexChars : List (Fin 256) → List Char
  | [] => []
  | b :: rest => hexDigit (b.val / 16) :: hexDigit (b.val % 16) :: hexChars rest

def hexEncode (bs : List (Fin 256)) : String := String.mk (hexChars bs)

def randomHex (n : Nat) (stream : Nat → Fin 256) : String :=
  hexEncode ((List.range n).map stream)

theorem hexChars_length : ∀ bs : List (Fin 256),
    (hexChars bs).length = 2 * bs.length
  | [] => rfl
  | b :: rest => by
    show (hexChars rest).length + 1 + 1 = 2 * (rest.length + 1)
    rw [hexChars_length rest]
    omega

theorem randomHex_length (n : Nat) (stream : Nat → Fin 256) :
    (randomHex n stream).length = 2 * n := by
  show (hexChars ((List.range n).map stream)).length = 2 * n
  rw [hexChars_length, List.length_map, List.length_range]

structure OpRec where
  op : String
  success : Bool
  timeout : Nat
deriving DecidableEq, Repr

inductive S3Call where
  | listBuckets
  | put (bucket name : String) (size : Nat)
  | get (bucket name : String)
  | remove (bucket name : String)
deriving DecidableEq, Repr

def mesureOperation (timeout : Nat) (operationName : String) (ok : Bool) :
    Except Unit Unit × OpRec :=
  ((if ok then .ok () else .error ()),
   { op := operationName, success := ok, timeout := timeout })

/-- Per-invocation collaborator outcomes for the four latency steps; the
get step succeeds exactly when the read loop drains the body to `io.EOF`
(any other read error fails the step). -/
structure LatencyEnv where
  listBucketsOk : Bool
  putOk : Bool
  getDrainedEOF : Bool
  removeOk : Bool

/-- `performLatencyChecks`: result, the measurement records in order, the
S3 calls issued in order, and the object name generated for this
invocation. -/
def performLatencyChecks (env : LatencyEnv) (stream : Nat → Fin 256)
    (p : ProbeCfg) :
    Except Unit Unit × List OpRec × List S3Call × String :=
  let objectName := randomHex 20 stream
  let r1 := mesureOperation p.latencyTimeout "list_buckets" env.listBucketsOk
  match r1.1 with
  | .error e => (.error e, [r1.2], [.listBuckets], objectName)
  | .ok () =>
    let r2 := mesureOperation p.latencyTimeout "put_object" env.putOk
    match r2.1 with
    | .error e => (.error e, [r1.2, r2.2],
        [.listBuckets, .put p.latencyBucketName objectName p.latencyItemSize],
        objectName)
    | .ok () =>
      let r3 := mesureOperation p.latencyTimeout "get_object" env.getDrainedEOF
      match r3.1 with
      | .error e => (.error e, [r1.2, r2.2, r3.2],
          [.listBuckets,
           .put p.latencyBucketName objectName p.latencyItemSize,
           .get p.latencyBucketName objectName], objectName)
      | .ok () =>
        let r4 := mesureOperation p.latencyTimeout "remove_object" env.removeOk
        match r4.1 with
        | .error e => (.error e, [r1.2, r2.2, r3.2, r4.2],
            [.listBuckets,
             .put p.latencyBucketName objectName p.latencyItemSize,
             .get p.latencyBucketName objectName,
             .remove p.latencyBucketName objectName], objectName)
        | .ok () => (.ok (), [r1.2, r2.2, r3.2, r4.2],
            [.listBuckets,
             .put p.latencyBucketName objectName p.latencyItemSize,
             .get p.latencyBucketName objectName,
             .remove p.latencyBucketName objectName], objectName)

/-- Spec-side fold of "on the first step that returns an error the
invocation stops without attempting any later step". -/
def stopAfterFirstFail : List (String × Bool) → List (String × Bool)
  | [] => []
  | (o, true) :: rest => (o, true) :: stopAfterFirstFail rest
  | (o, false) :: _ => [(o, false)]

/-- **C5** (amended).  Every latency-check invocation runs the ordered
sequence list_buckets, put_object (an object of `latencyItemSize` bytes
under a fresh random object name of **40** hex characters — the hex
encoding of 20 random bytes), get_object with a drain of the body, and
remove_object, all against the latency bucket under the same object name;
each executed step is recorded once with its own timeout derived from the
check timeout (total and latency always, success flag exactly on
success); the recorded steps are the maximal prefix of the sequence up to
and including the first failing step, and the invocation succeeds iff all
four steps succeed. -/
theorem performLatencyChecks_steps (env : LatencyEnv) (stream : Nat → Fin 256)
    (p : ProbeCfg) :
    (performLatencyChecks env stream p).2.2.2 = randomHex 20 stream ∧
    (performLatencyChecks env stream p).2.2.2.length = 40 ∧
    (performLatencyChecks env stream p).2.1.map (fun r => (r.op, r.success))
      = stopAfterFirstFail
          [("list_buckets", env.listBucketsOk), ("put_object", env.putOk),
           ("get_object", env.getDrainedEOF),
           ("remove_object", env.removeOk)] ∧
    (∀ r ∈ (performLatencyChecks env stream p).2.1,
       r.timeout = p.latencyTimeout) ∧
    (performLatencyChecks env stream p).2.2.1
      = [S3Call.listBuckets,
         S3Call.put p.latencyBucketName (randomHex 20 stream) p.latencyItemSize,
         S3Call.get p.latencyBucketName (randomHex 20 stream),
         S3Call.remove p.latencyBucketName (randomHex 20 stream)].take
          (performLatencyChecks env stream p).2.1.length ∧
    ((performLatencyChecks env stream p).1 = .ok ()
      ↔ env.listBucketsOk ∧ env.putOk ∧ env.getDrainedEOF ∧ env.removeOk) := by
  have hlen : (randomHex 20 stream).length = 40 := by
    rw [randomHex_length]
  obtain ⟨b1, b2, b3, b4⟩ := env
  cases b1 <;> cases b2 <;> cases b3 <;> cases b4 <;>
    refine ⟨rfl, hlen, rfl, fun r hr => ?_, rfl,
      by simp [performLatencyChecks, mesureOperation]⟩ <;>
    fin_cases hr <;> rfl

def zeroStream : Nat → Fin 256 := fun _ => 0

def envAllOk5 : LatencyEnv :=
  { listBucketsOk := true, putOk := true, getDrainedEOF := true,
    removeOk := true }

/-- C5 as stated is false in one respect: the object name generated by
`randomHex(20)` is the hex encoding of 20 random bytes, i.e. **40** hex
characters, not 20. -/
theorem performLatencyChecks_name_length_cex :
    (performLatencyChecks envAllOk5 zeroStream cfg3).2.2.2.length = 40 ∧
    ¬ (performLatencyChecks envAllOk5 zeroStream cfg3).2.2.2.length = 20 :=
  ⟨by decide, by decide⟩

/-! ### C6: the gateway check

`performGatewayChecks` writes one random 1 KiB object through
`mesureOperation`, then fans out over the gateway read endpoints.  The
read loop of the fan-out is
`for _, err = obj.Read(data); err == nil; {}` — its body and its
post-statement are empty, so the object is read exactly once; a first
read returning `err == nil` (a normal partial read of a non-empty body)
makes the condition loop forever without ever reading again, and nothing
after it is executed. -/

inductive ReadRes where
  | ok
  | eof
  | err
deriving DecidableEq, Repr

structure GwDest where
  name : String
  /-- error returned by `GetObject` itself; the code only logs it and
  falls through to the read. -/
  getOpenErr : Bool
  /-- outcome of the single `obj.Read(data)` the loop performs. -/
  firstRead : ReadRes
  removeErr : Bool

inductive GwEvent where
  | total (op dest : String)
  | success (op dest : String)
deriving DecidableEq, Repr

/-- The per-destination fan-out loop.  Per destination: increment the
gateway get total counter, call `GetObject` (an error is only logged),
read once — `.ok` busy-loops forever (`none`: the invocation never
returns and no later destination is visited), `.eof` counts the get as
successful, `.err` is logged; then increment the gateway remove total
counter and call `RemoveObject`, counting success when it returns no
error; then move to the next destination. -/
def gatewayFanOut : List GwDest → Option Unit × List GwEvent
  | [] => (some (), [])
  | d :: rest =>
    match d.firstRead with
    | .ok => (none, [GwEvent.total "gateway_get_object" d.name])
    | .eof =>
      let next := gatewayFanOut rest
      (next.1,
       GwEvent.total "gateway_get_object" d.name ::
       GwEvent.success "gateway_get_object" d.name ::
       GwEvent.total "gateway_remove_object" d.name ::
       ((if d.removeErr then []
         else [GwEvent.success "gateway_remove_object" d.name]) ++ next.2))
    | .err =>
      let next := gatewayFanOut rest
      (next.1,
       GwEvent.total "gateway_get_object" d.name ::
       GwEvent.total "gateway_remove_object" d.name ::
       ((if d.removeErr then []
         else [GwEvent.success "gateway_remove_object" d.name]) ++ next.2))

/-- `performGatewayChecks`: result (`none` when the invocation never
returns), the `mesureOperation` records of the put step, and the gateway
counter events of the fan-out. -/
def performGatewayChecks (putOk : Bool) (dests : List GwDest) (p : ProbeCfg) :
    Option (Except Unit Unit) × List OpRec × List GwEvent :=
  let r1 := mesureOperation p.latencyTimeout "gateway_put_object" putOk
  match r1.1 with
  | .error e => (some (.error e), [r1.2], [])
  | .ok () =>
    match gatewayFanOut dests with
    | (none, evs) => (none, [r1.2], evs)
    | (some (), evs) => (some (.ok ()), [r1.2], evs)

def gwHangDest : GwDest :=
  { name := "d1", getOpenErr := false, firstRead := .ok, removeErr := false }

def gwOkDest : GwDest :=
  { name := "d2", getOpenErr := false, firstRead := .eof, removeErr := false }

def gwErrDest : GwDest :=
  { name := "d1e", getOpenErr := false, firstRead := .err, removeErr := true }

/-- **C6** is the intent but the code's read loop is broken: with two
destinations where `d1`'s first read returns data with `err == nil` (a
normal partial read), the invocation busy-loops forever — it records only
`d1`'s get total counter, never drains the body, never reaches `d1`'s
remove, and never attempts or records anything for `d2`.  (For destination
failures that surface as read *errors* the fan-out does continue: with
`d1e` unreachable — read error, remove error — `d2` is still attempted
and fully recorded, matching the claim's continue-on-error part.) -/
theorem performGatewayChecks_read_loop_hangs :
    (performGatewayChecks true [gwHangDest, gwOkDest] cfg3).1 = none ∧
    (performGatewayChecks true [gwHangDest, gwOkDest] cfg3).2.2
      = [GwEvent.total "gateway_get_object" "d1"] ∧
    (∀ e ∈ (performGatewayChecks true [gwHangDest, gwOkDest] cfg3).2.2,
       e ≠ GwEvent.total "gateway_get_object" "d2" ∧
       e ≠ GwEvent.total "gateway_remove_object" "d2") ∧
    (performGatewayChecks true [gwErrDest, gwOkDest] cfg3).1
      = some (.ok ()) ∧
    (performGatewayChecks true [gwErrDest, gwOkDest] cfg3).2.2
      = [GwEvent.total "gateway_get_object" "d1e",
         GwEvent.total "gateway_remove_object" "d1e",
         GwEvent.total "gateway_get_object" "d2",
         GwEvent.success "gateway_get_object" "d2",
         GwEvent.total "gateway_remove_object" "d2",
         GwEvent.success "gateway_remove_object" "d2"] :=
  ⟨rfl, by decide, by decide, rfl, by decide⟩

/-! ## Consul endpoint resolution (`pkg/probe/consul.go`), C9/C10

A consul service entry is modelled by its metadata map; the consul
health queries and minio-client construction performed while resolving
gateway destinations are oracles. -/

structure ServiceEntry where
  meta : String → Option String

/-- The loop that scans the entries for the `gateway_destinations`
metadata value; the last entry carrying the key wins, the default is the
empty string. -/
def rawDestinationsOf (entries : List ServiceEntry) : String :=
  entries.foldl (fun raw e =>
    match e.meta "gateway_destinations" with
    | some dst => dst
    | none => raw) ""

/-- Go's `strings.Split(s, ";")`: splitting the empty string yields one
empty piece. -/
def splitSemi : List Char → List String
  | [] => [""]
  | c :: rest =>
    match splitSemi rest with
    | [] => [""]
    | h :: t =>
      if c = ';' then "" :: h :: t
      else String.mk (c :: h.data) :: t

def stringSplitSemi (s : String) : List String := splitSemi s.data

/-- The regex `^(.*):(.*)$`: it matches exactly the strings containing a
`:`, and the greedy first group splits at the last `:`. -/
def lastSplit : List Char → Option (List Char × List Char)
  | [] => none
  | c :: rest =>
    match lastSplit rest with
    | some (l, r) => some (c :: l, r)
    | none => if c = ':' then some ([], rest) else none

structure Destination where
  datacenter : String
  service : String
  raw : String
deriving DecidableEq, Repr

def parseDestination (s : String) : Option Destination :=
  match lastSplit s.data with
  | some (dc, svc) =>
    some { datacenter := String.mk dc, service := String.mk svc, raw := s }
  | none => none

/-- The destination loop of `extractDestinations`: destinations are
accumulated in order; the first piece failing the regex stops the loop,
returning the destinations collected so far with the error flag set. -/
def extractLoop (acc : List Destination) :
    List String → List Destination × Bool
  | [] => (acc, false)
  | piece :: rest =>
    match parseDestination piece with
    | none => (acc, true)
    | some d => extractLoop (acc ++ [d]) rest

def extractDestinations (entries : List ServiceEntry) :
    List Destination × Bool :=
  extractLoop [] (stringSplitSemi (rawDestinationsOf entries))

/-- Consul health queries by datacenter and the minio client
construction, as resolution oracles. -/
structure ConsulOracle where
  healthDC : String → String → Except Unit (List ServiceEntry)
  clientOk : String → Bool

def getProxyEndpoint (entries : List ServiceEntry) : Option String :=
  entries.findSome? (fun e => e.meta "proxy_address")

def getExternalClusterFqdn (entries : List ServiceEntry) : Option String :=
  entries.findSome? (fun e => e.meta "external_cluster_fqdn")

def getEndpointFromConsul (name : String) (entries : List ServiceEntry) :
    Except Unit String :=
  match getProxyEndpoint entries with
  | some proxy => .ok proxy
  | none =>
    match getExternalClusterFqdn entries with
    | some fqdn => .ok fqdn
    | none => .error ()

/-- The per-destination resolution loop of `extractGatewayEndoints`: a
failing health query or endpoint resolution returns the endpoints
accumulated so far with the error flag set; a failing client construction
returns the empty list with the error flag set. -/
def gatewayEndpointsLoop (oracle : ConsulOracle) (acc : List String) :
    List Destination → List String × Bool
  | [] => (acc, false)
  | d :: rest =>
    match oracle.healthDC d.datacenter d.service with
    | .error _ => (acc, true)
    | .ok endpointEntries =>
      match getEndpointFromConsul d.service endpointEntries with
      | .error _ => (acc, true)
      | .ok endpointName =>
        if oracle.clientOk endpointName then
          gatewayEndpointsLoop oracle (acc ++ [endpointName]) rest
        else ([], true)

def extractGatewayEndoints (entries : List ServiceEntry)
    (oracle : ConsulOracle) : List String × Bool :=
  if (extractDestinations entries).2 then ([], true)
  else gatewayEndpointsLoop oracle [] (extractDestinations entries).1

/-- `GetServiceEndPoints`: health query for the service, endpoint
resolution, and (for gateways) read-endpoint extraction; every failure
propagates as `("", [], error)`. -/
def GetServiceEndPoints (health : String → Except Unit (List ServiceEntry))
    (oracle : ConsulOracle) (serviceName : String) (isGateway : Bool) :
    String × List String × Bool :=
  match health serviceName with
  | .error _ => ("", [], true)
  | .ok serviceEntries =>
    match getEndpointFromConsul serviceName serviceEntries with
    | .error _ => ("", [], true)
    | .ok endpoint =>
      if isGateway then
        if (extractGatewayEndoints serviceEntries oracle).2 then ("", [], true)
        else (endpoint, (extractGatewayEndoints serviceEntries oracle).1, false)
      else (endpoint, [], false)

/-- The candidate-building loop of `Watcher.getServices`: a service whose
endpoint resolution fails is skipped (only the discovery-error counter is
incremented). -/
def getServicesLoop (health : String → Except Unit (List ServiceEntry))
    (oracle : ConsulOracle) : List (String × Bool) → List S3Service
  | [] => []
  | (serviceName, isGateway) :: rest =>
    if (GetServiceEndPoints health oracle serviceName isGateway).2.2 then
      getServicesLoop health oracle rest
    else
      { Name := serviceName
        Endpoint := (GetServiceEndPoints health oracle serviceName isGateway).1
        Gateway := isGateway
        GatewayReadEnpoints :=
          (GetServiceEndPoints health oracle serviceName isGateway).2.1.map
            (fun n => { Name := n }) }
        :: getServicesLoop health oracle rest

def getServices (reg : Except Unit (List (String × Bool)))
    (health : String → Except Unit (List ServiceEntry))
    (oracle : ConsulOracle) : List S3Service :=
  match reg with
  | .error _ => []
  | .ok services => getServicesLoop health oracle services

/-! ### C9: malformed `gateway_destinations` pairs -/

theorem lastSplit_eq_none : ∀ l : List Char, lastSplit l = none ↔ ':' ∉ l
  | [] => by simp [lastSplit]
  | c :: rest => by
    simp only [lastSplit, List.mem_cons]
    cases h : lastSplit rest with
    | some p =>
      simp only [reduceCtorEq, false_iff]
      intro hne
      exact ((lastSplit_eq_none rest).not.mp (by simp [h]))
        (fun hmem => hne (Or.inr hmem))
    | none =>
      have hrest := (lastSplit_eq_none rest).mp h
      by_cases hc : c = ':'
      · simp [hc]
      · simp only [if_neg hc]
        constructor
        · intro _ hor
          rcases hor with hor | hor
          · exact hc hor.symm
          · exact hrest hor
        · intro _; trivial

theorem parseDestination_eq_none {s : String} :
    parseDestination s = none ↔ ':' ∉ s.data := by
  unfold parseDestination
  cases h : lastSplit s.data with
  | some p => simp only [reduceCtorEq, false_iff]
              exact fun hmem => (lastSplit_eq_none s.data).not.mp (by simp [h]) hmem
  | none => simpa using (lastSplit_eq_none s.data).mp h

theorem extractLoop_error_of_bad_piece :
    ∀ (pieces : List String) (acc : List Destination),
      (∃ p ∈ pieces, parseDestination p = none) →
      (extractLoop acc pieces).2 = true
  | [], _, h => by simp at h
  | piece :: rest, acc, h => by
    cases hp : parseDestination piece with
    | none => simp [extractLoop, hp]
    | some d =>
      obtain ⟨p, hmem, hnone⟩ := h
      rcases List.mem_cons.mp hmem with rfl | hmem
      · exact absurd hnone (by simp [hp])
      · have := extractLoop_error_of_bad_piece rest (acc ++ [d]) ⟨p, hmem, hnone⟩
        simpa [extractLoop, hp] using this

/-- **C9**.  If any `;`-separated piece of the effective
`gateway_destinations` value lacks the `:` separator, destination
extraction fails for the whole field: `extractDestinations` sets the
error flag, `extractGatewayEndoints` propagates it handing the caller an
empty endpoint list, and `GetServiceEndPoints(serviceName, true)` on
entries carrying that metadata fails with no read endpoints. -/
theorem extractDestinations_malformed (entries : List ServiceEntry)
    (oracle : ConsulOracle)
    (health : String → Except Unit (List ServiceEntry)) (serviceName : String)
    (hmal : ∃ piece ∈ stringSplitSemi (rawDestinationsOf entries),
      ':' ∉ piece.data) :
    (extractDestinations entries).2 = true ∧
    extractGatewayEndoints entries oracle = ([], true) ∧
    (health serviceName = .ok entries →
      (GetServiceEndPoints health oracle serviceName true).2.2 = true ∧
      (GetServiceEndPoints health oracle serviceName true).2.1 = []) := by
  obtain ⟨piece, hmem, hnc⟩ := hmal
  have herr : (extractDestinations entries).2 = true :=
    extractLoop_error_of_bad_piece _ []
      ⟨piece, hmem, parseDestination_eq_none.mpr hnc⟩
  have hgw : extractGatewayEndoints entries oracle = ([], true) := by
    unfold extractGatewayEndoints
    rw [herr]
    rfl
  refine ⟨herr, hgw, fun hh => ?_⟩
  unfold GetServiceEndPoints
  rw [hh]
  cases hge : getEndpointFromConsul serviceName entries with
  | error e => simp [hge]
  | ok endpoint => simp [hge, hgw]

/-- The service entries of the spec's malformed-metadata example. -/
def cexEntries9 : List ServiceEntry :=
  [{ meta := fun k =>
      if k = "gateway_destinations" then some "us-west-1foobar;us-east-2:barfoo"
      else if k = "external_cluster_fqdn" then some "http://svc.prod:8080"
      else none }]

def health9 : String → Except Unit (List ServiceEntry) :=
  fun _ => .ok cexEntries9

def oracle9 : ConsulOracle :=
  { healthDC := fun _ _ => .ok [], clientOk := fun _ => true }

theorem extractDestinations_malformed_witness :
    (∃ piece ∈ stringSplitSemi (rawDestinationsOf cexEntries9),
      ':' ∉ piece.data) ∧
    ((extractDestinations cexEntries9).2 = true ∧
     extractGatewayEndoints cexEntries9 oracle9 = ([], true) ∧
     ((health9 "svc" = .ok cexEntries9 →
       (GetServiceEndPoints health9 oracle9 "svc" true).2.2 = true ∧
       (GetServiceEndPoints health9 oracle9 "svc" true).2.1 = []))) :=
  ⟨⟨"us-west-1foobar", by decide, by decide⟩,
   extractDestinations_malformed cexEntries9 oracle9 health9 "svc"
     ⟨"us-west-1foobar", by decide, by decide⟩⟩

/-! ### C10: gateway services without `gateway_destinations` metadata -/

theorem rawDestinationsOf_of_no_meta :
    ∀ (entries : List ServiceEntry) (init : String),
      (∀ e ∈ entries, e.meta "gateway_destinations" = none) →
      entries.foldl (fun raw e =>
        match e.meta "gateway_destinations" with
        | some dst => dst
        | none => raw) init = init
  | [], _, _ => rfl
  | e :: rest, init, h => by
    have he := h e (List.mem_cons_self _ _)
    show rest.foldl _ (match e.meta "gateway_destinations" with
      | some dst => dst | none => init) = init
    rw [he]
    exact rawDestinationsOf_of_no_meta rest init
      (fun e' he' => h e' (List.mem_cons_of_mem _ he'))

theorem pair_eq_of_nodup_fst :
    ∀ {l : List (String × Bool)} {n : String} {a b : Bool},
      (l.map Prod.fst).Nodup → (n, a) ∈ l → (n, b) ∈ l → a = b
  | [], _, _, _, _, ha, _ => by simp at ha
  | (m, c) :: rest, n, a, b, hnd, ha, hb => by
    simp only [List.map_cons, List.nodup_cons] at hnd
    rcases List.mem_cons.mp ha with heq | hat
    · rcases List.mem_cons.mp hb with heq' | hbt
      · injection heq with h1 h2
        injection heq' with h1' h2'
        rw [h2, h2']
      · injection heq with h1 h2
        subst h1
        have hmem2 : n ∈ rest.map Prod.fst :=
          List.mem_map.mpr ⟨(n, b), hbt, rfl⟩
        exact absurd hmem2 hnd.1
    · rcases List.mem_cons.mp hb with heq' | hbt
      · injection heq' with h1' h2'
        subst h1'
        have hmem2 : n ∈ rest.map Prod.fst :=
          List.mem_map.mpr ⟨(n, a), hat, rfl⟩
        exact absurd hmem2 hnd.1
      · exact pair_eq_of_nodup_fst hnd.2 hat hbt

theorem mem_getServicesLoop_names
    (health : String → Except Unit (List ServiceEntry))
    (oracle : ConsulOracle) :
    ∀ (svcs : List (String × Bool)) (n : String),
      n ∈ (getServicesLoop health oracle svcs).map S3Service.Name →
      ∃ gw, (n, gw) ∈ svcs ∧
        (GetServiceEndPoints health oracle n gw).2.2 = false
  | [], n, h => by simp [getServicesLoop] at h
  | (sn, gw) :: rest, n, h => by
    unfold getServicesLoop at h
    by_cases herr : (GetServiceEndPoints health oracle sn gw).2.2 = true
    · rw [if_pos herr] at h
      obtain ⟨gw', hmem, hok⟩ := mem_getServicesLoop_names health oracle rest n h
      exact ⟨gw', List.mem_cons_of_mem _ hmem, hok⟩
    · rw [if_neg herr] at h
      simp only [List.map_cons, List.mem_cons] at h
      rcases h with heq | h
      · subst heq
        exact ⟨gw, List.mem_cons_self _ _, Bool.not_eq_true _ ▸ herr⟩
      · obtain ⟨gw', hmem, hok⟩ := mem_getServicesLoop_names health oracle rest n h
        exact ⟨gw', List.mem_cons_of_mem _ hmem, hok⟩

/-- **C10** (implicit).  If no service entry carries the
`gateway_destinations` key, the effective raw value is the empty string;
splitting the empty string yields one empty piece that fails the
`datacenter:service` regex, so `extractDestinations` errors,
`extractGatewayEndoints` hands back no endpoints,
`GetServiceEndPoints(serviceName, true)` errors, and the watcher's
candidate-building loop skips the service: a gateway service without that
metadata never becomes a candidate with an empty replica list. -/
theorem gateway_service_without_destinations_rejected
    (entries : List ServiceEntry) (oracle : ConsulOracle)
    (health : String → Except Unit (List ServiceEntry))
    (services : List (String × Bool)) (serviceName : String) :
    ((∀ e ∈ entries, e.meta "gateway_destinations" = none) →
      rawDestinationsOf entries = "") ∧
    (rawDestinationsOf entries = "" →
      (extractDestinations entries).2 = true ∧
      extractGatewayEndoints entries oracle = ([], true)) ∧
    (rawDestinationsOf entries = "" → health serviceName = .ok entries →
      (GetServiceEndPoints health oracle serviceName true).2.2 = true ∧
      (GetServiceEndPoints health oracle serviceName true).2.1 = []) ∧
    (rawDestinationsOf entries = "" → health serviceName = .ok entries →
      (services.map Prod.fst).Nodup → (serviceName, true) ∈ services →
      serviceName ∉
        (getServices (.ok services) health oracle).map S3Service.Name) := by
  have herr : ∀ _ : rawDestinationsOf entries = "",
      (extractDestinations entries).2 = true := by
    intro hraw
    unfold extractDestinations stringSplitSemi
    rw [hraw]
    decide
  have hgw : ∀ _ : rawDestinationsOf entries = "",
      extractGatewayEndoints entries oracle = ([], true) := by
    intro hraw
    unfold extractGatewayEndoints
    rw [herr hraw]
    rfl
  have hget : ∀ _ : rawDestinationsOf entries = "",
      health serviceName = .ok entries →
      (GetServiceEndPoints health oracle serviceName true).2.2 = true ∧
      (GetServiceEndPoints health oracle serviceName true).2.1 = [] := by
    intro hraw hh
    unfold GetServiceEndPoints
    rw [hh]
    cases hge : getEndpointFromConsul serviceName entries with
    | error e => simp [hge]
    | ok endpoint => simp [hge, hgw hraw]
  refine ⟨fun hnometa => rawDestinationsOf_of_no_meta entries "" hnometa,
    fun hraw => ⟨herr hraw, hgw hraw⟩, hget, ?_⟩
  intro hraw hh hnd hmem hin
  obtain ⟨gw', hmem', hok⟩ :=
    mem_getServicesLoop_names health oracle services serviceName hin
  have : gw' = true := pair_eq_of_nodup_fst hnd hmem' hmem
  subst this
  rw [(hget hraw hh).1] at hok
  exact Bool.true_eq_false ▸ hok

/-- A gateway service whose single entry resolves an endpoint but carries
no `gateway_destinations` metadata. -/
def entries10 : List ServiceEntry :=
  [{ meta := fun k =>
      if k = "external_cluster_fqdn" then some "http://svc.prod:8080"
      else none }]

def health10 : String → Except Unit (List ServiceEntry) :=
  fun _ => .ok entries10

def oracle10 : ConsulOracle :=
  { healthDC := fun _ _ => .ok [], clientOk := fun _ => true }

def services10 : List (String × Bool) := [("svc", true)]

theorem gateway_service_without_destinations_rejected_witness :
    ((∀ e ∈ entries10, e.meta "gateway_destinations" = none) ∧
     (services10.map Prod.fst).Nodup ∧ ("svc", true) ∈ services10) ∧
    (rawDestinationsOf entries10 = "" ∧
     (extractDestinations entries10).2 = true ∧
     (GetServiceEndPoints health10 oracle10 "svc" true).2.2 = true ∧
     "svc" ∉ (getServices (.ok services10) health10 oracle10).map
       S3Service.Name) := by
  have T := gateway_service_without_destinations_rejected entries10 oracle10
    health10 services10 "svc"
  have hnometa : ∀ e ∈ entries10, e.meta "gateway_destinations" = none := by
    decide
  have hraw : rawDestinationsOf entries10 = "" := T.1 hnometa
  exact ⟨⟨hnometa, by decide, by decide⟩,
    ⟨hraw, (T.2.1 hraw).1, (T.2.2.1 hraw rfl).1,
     T.2.2.2 hraw rfl (by decide) (by decide)⟩⟩
